import Mathlib

/-
  Verification development for the gemini-video-analyzer pipeline
  (single source file: streamlit.py).

  The remote service (genai), the filesystem and the environment are modelled
  explicitly: remote calls become fields of an Oracle record, the filesystem
  becomes the list of existing paths, and the process environment becomes an
  association list.  Python strings are Lean strings; a Python float sampling
  parameter is modelled as a rational number (no arithmetic is ever performed
  on it, only equality for the cache key).
-/

namespace VideoAnalyzer

/-- Sampling parameters of the remote model (the generation_config dict). -/
structure GenerationConfig where
  temperature : ℚ
  top_p : ℚ
  top_k : ℕ
  max_output_tokens : ℕ
  response_mime_type : String
deriving DecidableEq, Repr

/-- The generation_config literal built at module level in streamlit.py. -/
def generation_config : GenerationConfig :=
  { temperature := 3/10, top_p := 3/10, top_k := 4,
    max_output_tokens := 65536, response_mime_type := "text/plain" }

/-- The memoization key of load_gemini_model: st.cache_resource keys the
cached resource on the argument tuple (model_name, generation_config,
system_instruction). -/
structure CacheKey where
  model_name : String
  generation_cfg : GenerationConfig
  system_instruction : String
deriving DecidableEq, Repr

/-- A constructed genai.GenerativeModel instance.  The id field distinguishes
instances: each construction yields a fresh id, so two handles are the same
object exactly when they are equal as structures. -/
structure ModelHandle where
  id : ℕ
  key : CacheKey
deriving DecidableEq, Repr

/-- The process-wide st.cache_resource store for load_gemini_model. -/
structure CacheState where
  entries : List (CacheKey × ModelHandle)
  nextId : ℕ
deriving DecidableEq, Repr

/-- Association-list lookup used by the cache model. -/
def cacheLookup (k : CacheKey) : List (CacheKey × ModelHandle) → Option ModelHandle
  | [] => none
  | (k1, h) :: rest => if k1 = k then some h else cacheLookup k rest

/-- load_gemini_model (streamlit.py lines 29-36): st.cache_resource returns
the cached instance for an identical argument tuple, otherwise constructs a
fresh GenerativeModel (a fresh id) and stores it. -/
def load_gemini_model (c : CacheState) (k : CacheKey) : CacheState × ModelHandle :=
  match cacheLookup k c.entries with
  | some h => (c, h)
  | none =>
    let h : ModelHandle := { id := c.nextId, key := k }
    ({ entries := (k, h) :: c.entries, nextId := c.nextId + 1 }, h)

/-- A remote file reference returned by genai.upload_file; the name field is
the opaque identifier passed back to genai.get_file. -/
structure UploadedAsset where
  name : String
deriving DecidableEq, Repr

/-- One part of a chat turn: either literal text (the URL case) or an
uploaded-asset reference (the files case). -/
inductive ChatPart where
  | text (s : String)
  | asset (a : UploadedAsset)
deriving DecidableEq, Repr

/-- One history entry of model.start_chat. -/
structure ChatTurn where
  role : String
  parts : List ChatPart
deriving DecidableEq, Repr

/-- The response object of chat_session.send_message. -/
structure ChatResponse where
  text : String
deriving DecidableEq, Repr

/-- The error kinds that can cross the orchestrator boundary. -/
inductive Err where
  | configError (msg : String)
  | uploadError (msg : String)
  | processingFailed (msg : String)
  | analysisError (msg : String)
deriving DecidableEq, Repr

/-- The remote service boundary.  upload models genai.upload_file on a local
path and declared MIME type; fetchStates n lists the successive states that
genai.get_file n returns on successive calls; sendMessage models
model.start_chat(history) followed by chat_session.send_message(prompt). -/
structure Oracle where
  upload : String → String → Except Err UploadedAsset
  fetchStates : String → List String
  sendMessage : ModelHandle → List ChatTurn → String → Except Err ChatResponse

/-- os.getenv against a modelled process environment. -/
def os_getenv (env : List (String × String)) (k : String) : Option String :=
  match env with
  | [] => none
  | (k1, v) :: rest => if k1 = k then some v else os_getenv rest k

/-- The module-level read of the API key (streamlit.py line 12). -/
def GEMINI_API_KEY (env : List (String × String)) : Option String :=
  os_getenv env "GEMINI_API_KEY"

/-- The module-level startup of streamlit.py as far as the credential is
concerned: load_dotenv then GEMINI_API_KEY = os.getenv("GEMINI_API_KEY").
No statement on this path raises, so the result is always ok, carrying the
possibly-absent credential. -/
def startupCredential (env : List (String × String)) : Except Err (Option String) :=
  Except.ok (GEMINI_API_KEY env)

/-- upload_to_gemini (streamlit.py lines 38-43): configure then
genai.upload_file(path, mime_type); the print has no modelled effect. -/
def upload_to_gemini (O : Oracle) (path mime_type : String) : Except Err UploadedAsset :=
  O.upload path mime_type

/-- Observable events of the readiness poller: a genai.get_file call on a
name, or a time.sleep of a duration in seconds. -/
inductive PollEv where
  | fetch (name : String)
  | sleep (secs : ℕ)
deriving DecidableEq, Repr

/-- The per-asset loop of wait_for_files_active: fetch the state; while it is
PROCESSING, sleep 10 then re-fetch.  The argument list holds the successive
states the remote returns; none models the unbounded wait that occurs when
the remote never leaves PROCESSING.  On termination it yields the emitted
event trace and the first non-PROCESSING state. -/
def pollOne (name : String) : List String → Option (List PollEv × String)
  | [] => none
  | s :: rest =>
    if s = "PROCESSING" then
      match pollOne name rest with
      | none => none
      | some (tr, fin) => some (PollEv.fetch name :: PollEv.sleep 10 :: tr, fin)
    else
      some ([PollEv.fetch name], s)

/-- wait_for_files_active (streamlit.py lines 45-58): for each file name in
order, poll until the state leaves PROCESSING; if the terminal state is not
ACTIVE, raise naming the file and stop.  Returns the full event trace and
either ok or the raised message; none models divergence inside a poll. -/
def wait_for_files_active (fetch : String → List String) :
    List String → Option (List PollEv × Except String Unit)
  | [] => some ([], Except.ok ())
  | n :: rest =>
    match pollOne n (fetch n) with
    | none => none
    | some (tr, fin) =>
      if fin = "ACTIVE" then
        match wait_for_files_active fetch rest with
        | none => none
        | some (tr2, r) => some (tr ++ tr2, r)
      else
        some (tr, Except.error ("File " ++ n ++ " failed to process"))

/-- An input file as handed over by the file uploader: a filename and raw
content bytes (content is opaque here). -/
structure VFile where
  name : String
  content : String
deriving DecidableEq, Repr

/-- The temporary local path of streamlit.py line 82:
"temp_video_" + video_file.name. -/
def tempPath (name : String) : String :=
  "temp_video_" ++ name

/-- Python single-character split: s.split(sep) on a list of characters.
Matches CPython semantics for a one-character separator: splitDot of an empty
list is one empty group, and every separator occurrence starts a new group. -/
def splitDot : List Char → List (List Char)
  | [] => [[]]
  | c :: rest =>
    if c = '.' then [] :: splitDot rest
    else
      match splitDot rest with
      | [] => [[c]]
      | g :: gs => (c :: g) :: gs

/-- The MIME string of streamlit.py line 86:
"video/" + video_path.split(".")[-1]. -/
def mimeType (video_path : String) : String :=
  "video/" ++ String.mk ((splitDot video_path.data).getLastD [])

/-- Creating a local file: open(path, "wb") makes the path exist. -/
def fsWrite (fs : List String) (p : String) : List String :=
  if p ∈ fs then fs else p :: fs

/-- One step of the cleanup loop: if os.path.exists(p) then os.remove(p). -/
def removeIfExists (a : List String) (p : String) : List String :=
  if p ∈ a then a.filter (fun q => q ≠ p) else a

/-- The cleanup loop of streamlit.py lines 102-104: for each recorded temp
path, if it exists, os.remove it. -/
def cleanupTemps (fs : List String) (paths : List String) : List String :=
  paths.foldl removeIfExists fs

/-- The write-and-upload loop of streamlit.py lines 81-86: for each input
file, record its temp path, write the bytes there, and upload with the MIME
type inferred from the temp path.  Returns the filesystem after the loop, the
recorded temp paths, and either the uploaded assets in order or the first
upload error (which in the source propagates out of the whole function). -/
def uploadPhase (O : Oracle) (fs : List String) :
    List VFile → List String × List String × Except Err (List UploadedAsset)
  | [] => (fs, [], Except.ok [])
  | f :: rest =>
    match upload_to_gemini O (tempPath f.name) (mimeType (tempPath f.name)) with
    | Except.error e =>
      (fsWrite fs (tempPath f.name), [tempPath f.name], Except.error e)
    | Except.ok a =>
      match uploadPhase O (fsWrite fs (tempPath f.name)) rest with
      | (fs2, ps, Except.error e) => (fs2, tempPath f.name :: ps, Except.error e)
      | (fs2, ps, Except.ok as) => (fs2, tempPath f.name :: ps, Except.ok (a :: as))

/-- The start_chat history of analyze_video_from_url (lines 64-71): one user
turn whose single part is the URL string. -/
def urlChatHistory (url : String) : List ChatTurn :=
  [{ role := "user", parts := [ChatPart.text url] }]

/-- The start_chat history of analyze_video_from_files (lines 92-99): one
user turn whose parts are the uploaded assets in order. -/
def filesChatHistory (assets : List UploadedAsset) : List ChatTurn :=
  [{ role := "user", parts := assets.map ChatPart.asset }]

/-- analyze_video_from_url (streamlit.py lines 61-73): load the (cached)
model, start a chat seeded with the URL, send the prompt, return the text. -/
def analyze_video_from_url (O : Oracle) (c : CacheState)
    (url selected_model_name : String) (cfg : GenerationConfig)
    (system_instruction input_prompt : String) : CacheState × Except Err String :=
  match load_gemini_model c ⟨selected_model_name, cfg, system_instruction⟩ with
  | (c1, model) =>
    match O.sendMessage model (urlChatHistory url) input_prompt with
    | Except.error e => (c1, Except.error e)
    | Except.ok response => (c1, Except.ok response.text)

/-- The mutable world of one analyze_video_from_files call: the local
filesystem and the process-wide model cache. -/
structure World where
  fs : List String
  cache : CacheState
deriving DecidableEq, Repr

/-- analyze_video_from_files (streamlit.py lines 76-105).  The source has no
try/finally: an exception anywhere before line 102 propagates with the
filesystem as it stands, and the cleanup loop runs only on the straight-line
path after send_message succeeds.  none models divergence of the poller. -/
def analyze_video_from_files (O : Oracle) (W : World) (video_files : List VFile)
    (selected_model_name : String) (cfg : GenerationConfig)
    (system_instruction input_prompt : String) :
    Option (World × Except Err String) :=
  match uploadPhase O W.fs video_files with
  | (fs1, _, Except.error e) => some ({ W with fs := fs1 }, Except.error e)
  | (fs1, ps, Except.ok assets) =>
    match wait_for_files_active O.fetchStates (assets.map (fun a => a.name)) with
    | none => none
    | some (_, Except.error msg) =>
      some ({ W with fs := fs1 }, Except.error (Err.processingFailed msg))
    | some (_, Except.ok ()) =>
      match load_gemini_model W.cache ⟨selected_model_name, cfg, system_instruction⟩ with
      | (c1, model) =>
        match O.sendMessage model (filesChatHistory assets) input_prompt with
        | Except.error e => some ({ fs := fs1, cache := c1 }, Except.error e)
        | Except.ok response =>
          some ({ fs := cleanupTemps fs1 ps, cache := c1 }, Except.ok response.text)

/-! ## Cache lemmas (st.cache_resource model) -/

/-- Every cached entry stores a handle remembering exactly its key. -/
def WFCache (c : CacheState) : Prop :=
  ∀ e ∈ c.entries, (e.2).key = e.1

lemma cacheLookup_mem {k : CacheKey} {h : ModelHandle} :
    ∀ {es : List (CacheKey × ModelHandle)}, cacheLookup k es = some h → (k, h) ∈ es := by
  intro es
  induction es with
  | nil => intro hx; simp [cacheLookup] at hx
  | cons e rest ih =>
    intro hx
    obtain ⟨k1, h1⟩ := e
    by_cases hk : k1 = k
    · subst hk
      unfold cacheLookup at hx
      rw [if_pos rfl] at hx
      injection hx with hx
      subst hx
      exact List.mem_cons_self _ _
    · unfold cacheLookup at hx
      rw [if_neg hk] at hx
      exact List.mem_cons_of_mem _ (ih hx)

lemma load_gemini_model_key (c : CacheState) (k : CacheKey) (hwf : WFCache c) :
    ((load_gemini_model c k).2).key = k := by
  unfold load_gemini_model
  cases hl : cacheLookup k c.entries with
  | none => rfl
  | some h => exact hwf _ (cacheLookup_mem hl)

lemma load_gemini_model_wf (c : CacheState) (k : CacheKey) (hwf : WFCache c) :
    WFCache (load_gemini_model c k).1 := by
  unfold load_gemini_model
  cases hl : cacheLookup k c.entries with
  | none =>
    intro e he
    rcases List.mem_cons.mp he with rfl | he
    · rfl
    · exact hwf e he
  | some h => exact hwf

lemma load_gemini_model_stable {c c1 : CacheState} {h : ModelHandle} {k : CacheKey}
    (hl : load_gemini_model c k = (c1, h)) : load_gemini_model c1 k = (c1, h) := by
  unfold load_gemini_model at hl ⊢
  cases hlk : cacheLookup k c.entries with
  | some h0 =>
    rw [hlk] at hl
    injection hl with h1 h2
    subst h1
    subst h2
    rw [hlk]
  | none =>
    rw [hlk] at hl
    injection hl with h1 h2
    subst h1
    subst h2
    simp [cacheLookup]

/-- Claim C4: within one process lifetime, calling load_gemini_model twice
with the identical (model name, generation config, system instruction) triple
returns the same cached handle instance and leaves the cache untouched (no
new construction), while calling it with a key differing in any field returns
a distinct handle instance. -/
theorem cache_idempotent_and_fresh (c : CacheState) (k1 k2 : CacheKey)
    (hwf : WFCache c) (hne : k1 ≠ k2) :
    load_gemini_model (load_gemini_model c k1).1 k1 = load_gemini_model c k1 ∧
    (load_gemini_model (load_gemini_model c k1).1 k2).2 ≠ (load_gemini_model c k1).2 := by
  constructor
  · exact load_gemini_model_stable rfl
  · intro he
    have h1 : ((load_gemini_model c k1).2).key = k1 := load_gemini_model_key c k1 hwf
    have h2 : ((load_gemini_model (load_gemini_model c k1).1 k2).2).key = k2 :=
      load_gemini_model_key _ k2 (load_gemini_model_wf c k1 hwf)
    rw [he, h1] at h2
    exact hne h2

/-- The empty cache at process start. -/
def initCache : CacheState := { entries := [], nextId := 0 }

/-- A concrete cache key, and one differing from it only in the model name. -/
def keyA : CacheKey := ⟨"gemini-1.5-pro", generation_config, "sys"⟩

def keyB : CacheKey := ⟨"gemini-1.5-flash", generation_config, "sys"⟩

/-- Witness for C4 at the empty cache and two keys differing in one field. -/
theorem cache_idempotent_and_fresh_witness :
    load_gemini_model (load_gemini_model initCache keyA).1 keyA =
      load_gemini_model initCache keyA ∧
    (load_gemini_model (load_gemini_model initCache keyA).1 keyB).2 ≠
      (load_gemini_model initCache keyA).2 :=
  cache_idempotent_and_fresh initCache keyA keyB
    (by intro e he; cases he) (by decide)

/-! ## Startup credential (C5) -/

/-- Claim C5 counterexample: with the API-key variable absent from the
environment, module startup stores an absent credential and surfaces no
ConfigError at all — the startup result is ok none, not an error. -/
theorem startup_no_config_error_when_key_absent :
    startupCredential [] = Except.ok none ∧ GEMINI_API_KEY [] = none :=
  ⟨rfl, rfl⟩

/-- Claim C5 (amended): when the API-key variable is absent, the module-level
read yields an absent credential and startup completes without raising any
configuration error; nothing on that path can fail before the credential is
first used by a remote call. -/
theorem startup_silent_on_missing_key (env : List (String × String))
    (h : os_getenv env "GEMINI_API_KEY" = none) :
    startupCredential env = Except.ok none := by
  unfold startupCredential GEMINI_API_KEY
  rw [h]

/-- Witness for the amended C5 at a concrete environment without the key. -/
theorem startup_silent_on_missing_key_witness :
    startupCredential [("HOME", "/root")] = Except.ok none :=
  startup_silent_on_missing_key [("HOME", "/root")] (by decide)

/-! ## Temporary path derivation (C6) -/

/-- Claim C6 counterexample: two distinct input files that share a filename
are mapped to the same temporary local path, so the paths of distinct files
in one invocation are not always distinct. -/
theorem temp_path_collision_on_equal_names :
    (⟨"a.mp4", "xx"⟩ : VFile) ≠ (⟨"a.mp4", "yy"⟩ : VFile) ∧
    tempPath (VFile.name ⟨"a.mp4", "xx"⟩) = tempPath (VFile.name ⟨"a.mp4", "yy"⟩) :=
  ⟨by decide, rfl⟩

/-- Claim C6 (amended): the temporary path is derived deterministically from
the original filename by prepending a fixed tag, and this derivation is
injective: files with distinct names get distinct temporary paths (files
sharing a name collide). -/
theorem temp_path_injective_on_names (n1 n2 : String) (h : n1 ≠ n2) :
    tempPath n1 ≠ tempPath n2 := by
  intro he
  apply h
  have hd : ("temp_video_" ++ n1).data = ("temp_video_" ++ n2).data :=
    congrArg String.data he
  rw [String.data_append, String.data_append] at hd
  have hq := List.append_cancel_left hd
  cases n1
  cases n2
  exact congrArg String.mk hq

/-- Witness for the amended C6 at two concrete distinct filenames. -/
theorem temp_path_injective_on_names_witness :
    tempPath "a.mp4" ≠ tempPath "b.mp4" :=
  temp_path_injective_on_names "a.mp4" "b.mp4" (by decide)

/-! ## Poller scenarios (C2, C10) -/

/-- The state sequences of the three assets of the C2 scenario. -/
def scenFetch : String → List String := fun n =>
  if n = "f1" then ["PROCESSING", "PROCESSING", "ACTIVE"]
  else if n = "f2" then ["ACTIVE"]
  else ["PROCESSING", "FAILED"]

/-- The same scenario except that the third asset ends ACTIVE. -/
def scenFetchAllActive : String → List String := fun n =>
  if n = "f1" then ["PROCESSING", "PROCESSING", "ACTIVE"]
  else if n = "f2" then ["ACTIVE"]
  else ["PROCESSING", "ACTIVE"]

/-- Claim C2: on the scenario [PROCESSING, PROCESSING, ACTIVE] / [ACTIVE] /
[PROCESSING, FAILED] the poller works the assets in sequence order, sleeps
the fixed 10-unit interval exactly twice for asset 1, zero times for asset 2
and once for asset 3, then raises naming asset 3, fetching nothing further
(the trace below is exact and complete); and when asset 3 instead reaches
ACTIVE, the call returns normally with no value. -/
theorem poller_scenario_trace :
    wait_for_files_active scenFetch ["f1", "f2", "f3"] =
      some ([PollEv.fetch "f1", PollEv.sleep 10, PollEv.fetch "f1", PollEv.sleep 10,
             PollEv.fetch "f1", PollEv.fetch "f2", PollEv.fetch "f3", PollEv.sleep 10,
             PollEv.fetch "f3"],
            Except.error "File f3 failed to process") ∧
    wait_for_files_active scenFetchAllActive ["f1", "f2", "f3"] =
      some ([PollEv.fetch "f1", PollEv.sleep 10, PollEv.fetch "f1", PollEv.sleep 10,
             PollEv.fetch "f1", PollEv.fetch "f2", PollEv.fetch "f3", PollEv.sleep 10,
             PollEv.fetch "f3"],
            Except.ok ()) :=
  ⟨rfl, rfl⟩

/-- Claim C10: on an empty asset list the poller returns normally with no
value, fetching nothing and sleeping never (the trace is empty), whatever
states the remote would have served. -/
theorem wait_empty_no_fetch_no_sleep (fetch : String → List String) :
    wait_for_files_active fetch [] = some ([], Except.ok ()) :=
  rfl

/-- Witness for C10 at a concrete state oracle. -/
theorem wait_empty_no_fetch_no_sleep_witness :
    wait_for_files_active scenFetch [] = some ([], Except.ok ()) :=
  wait_empty_no_fetch_no_sleep scenFetch

/-! ## MIME inference (C7) -/

lemma splitDot_ne_nil (l : List Char) : splitDot l ≠ [] := by
  induction l with
  | nil => simp [splitDot]
  | cons c rest ih =>
    unfold splitDot
    split
    · simp
    · split <;> simp

lemma splitDot_no_dot {l : List Char} (h : '.' ∉ l) : splitDot l = [l] := by
  induction l with
  | nil => rfl
  | cons c rest ih =>
    have hc : ¬ c = '.' := by
      intro hc
      exact h (hc ▸ List.mem_cons_self c rest)
    have hrest : '.' ∉ rest := fun hm => h (List.mem_cons_of_mem _ hm)
    unfold splitDot
    rw [if_neg hc, ih hrest]

lemma splitDot_length_ge_two {l : List Char} (h : '.' ∈ l) :
    2 ≤ (splitDot l).length := by
  induction l with
  | nil => cases h
  | cons c rest ih =>
    unfold splitDot
    by_cases hc : c = '.'
    · rw [if_pos hc]
      have hne := splitDot_ne_nil rest
      have hpos : 0 < (splitDot rest).length := List.length_pos.mpr hne
      simp only [List.length_cons]
      omega
    · rw [if_neg hc]
      have hm : '.' ∈ rest := by
        rcases List.mem_cons.mp h with hh | hh
        · exact absurd hh.symm hc
        · exact hh
      have h2 := ih hm
      cases hsp : splitDot rest with
      | nil => exact absurd hsp (splitDot_ne_nil rest)
      | cons g gs =>
        rw [hsp] at h2
        simp only [List.length_cons] at h2 ⊢
        omega

lemma getLastD_irrel {α : Type} (l : List α) (a b : α) (h : l ≠ []) :
    l.getLastD a = l.getLastD b := by
  cases l with
  | nil => exact absurd rfl h
  | cons x xs => simp only [List.getLastD_cons]

/-- The cons-step equation of splitDot, usable for targeted rewriting. -/
lemma splitDot_cons (c : Char) (rest : List Char) :
    splitDot (c :: rest) =
      if c = '.' then [] :: splitDot rest
      else
        match splitDot rest with
        | [] => [[c]]
        | g :: gs => (c :: g) :: gs := rfl

lemma splitDot_last_cons (c : Char) (rest : List Char) (h : '.' ∈ rest) :
    (splitDot (c :: rest)).getLastD [] = (splitDot rest).getLastD [] := by
  rw [splitDot_cons]
  by_cases hc : c = '.'
  · rw [if_pos hc, List.getLastD_cons]
  · rw [if_neg hc]
    cases hsp : splitDot rest with
    | nil => exact absurd hsp (splitDot_ne_nil rest)
    | cons g gs =>
      have h2 := splitDot_length_ge_two h
      rw [hsp] at h2
      have hgs : gs ≠ [] := by
        intro he
        rw [he] at h2
        simp at h2
      show ((c :: g) :: gs).getLastD [] = ((g :: gs)).getLastD []
      simp only [List.getLastD_cons]
      exact getLastD_irrel gs _ _ hgs

lemma splitDot_last_append (pre post : List Char) (h : '.' ∈ post) :
    (splitDot (pre ++ post)).getLastD [] = (splitDot post).getLastD [] := by
  induction pre with
  | nil => rfl
  | cons c cs ih =>
    have hm : '.' ∈ cs ++ post := List.mem_append_right _ h
    rw [List.cons_append, splitDot_last_cons c (cs ++ post) hm, ih]

/-- The last group of the dot-split of a dotted list is exactly the segment
after the last dot: the list decomposes around a final dot, and the segment
holds no further dot. -/
lemma splitDot_last_spec {l : List Char} (h : '.' ∈ l) :
    ∃ pre, l = pre ++ '.' :: (splitDot l).getLastD [] ∧
      '.' ∉ (splitDot l).getLastD [] := by
  induction l with
  | nil => cases h
  | cons c rest ih =>
    by_cases hm : '.' ∈ rest
    · obtain ⟨pre, hpre, hnd⟩ := ih hm
      rw [splitDot_last_cons c rest hm]
      exact ⟨c :: pre, by rw [List.cons_append, ← hpre], hnd⟩
    · have hc : c = '.' := by
        rcases List.mem_cons.mp h with hh | hh
        · exact hh.symm
        · exact absurd hh hm
      subst hc
      have hstep : splitDot ('.' :: rest) = [] :: splitDot rest := by
        rw [splitDot_cons, if_pos rfl]
      rw [hstep, List.getLastD_cons, splitDot_no_dot hm]
      refine ⟨[], ?_, ?_⟩
      · simp [List.getLastD_cons]
      · simpa [List.getLastD_cons] using hm

/-- Claim C7: the MIME string handed to the upload call (computed in the
source from the temporary path) is "video/" followed by the extension of the
original filename, where the extension is precisely the segment of the name
after its last dot (the name decomposes as pre ++ dot ++ extension with no
dot inside the extension). -/
theorem mime_is_video_slash_extension (name : String) (h : '.' ∈ name.data) :
    ∃ pre : List Char,
      name.data = pre ++ '.' :: ((splitDot name.data).getLastD []) ∧
      '.' ∉ ((splitDot name.data).getLastD []) ∧
      mimeType (tempPath name) =
        "video/" ++ String.mk ((splitDot name.data).getLastD []) := by
  obtain ⟨pre, hpre, hnd⟩ := splitDot_last_spec h
  refine ⟨pre, hpre, hnd, ?_⟩
  unfold mimeType tempPath
  have hdata : ("temp_video_" ++ name).data = "temp_video_".data ++ name.data :=
    String.data_append _ _
  rw [hdata, splitDot_last_append _ _ h]

/-- Witness for C7 at the concrete filename a.mp4. -/
theorem mime_is_video_slash_extension_witness :
    ('.' ∈ ("a.mp4" : String).data) ∧
    ∃ pre : List Char,
      ("a.mp4" : String).data = pre ++ '.' :: ((splitDot ("a.mp4" : String).data).getLastD []) ∧
      '.' ∉ ((splitDot ("a.mp4" : String).data).getLastD []) ∧
      mimeType (tempPath "a.mp4") =
        "video/" ++ String.mk ((splitDot ("a.mp4" : String).data).getLastD []) :=
  ⟨by decide, mime_is_video_slash_extension "a.mp4" (by decide)⟩

/-! ## Upload phase and cleanup lemmas -/

lemma uploadPhase_ok {O : Oracle} :
    ∀ {video_files : List VFile} {fs fs1 ps : List String} {assets : List UploadedAsset},
      uploadPhase O fs video_files = (fs1, ps, Except.ok assets) →
      ps = video_files.map (fun f => tempPath f.name) ∧
      List.Forall₂ (fun f a =>
          upload_to_gemini O (tempPath f.name) (mimeType (tempPath f.name)) = Except.ok a)
        video_files assets := by
  intro video_files
  induction video_files with
  | nil =>
    intro fs fs1 ps assets h
    unfold uploadPhase at h
    injection h with h1 h2
    injection h2 with h2 h3
    injection h3 with h3
    subst h2
    subst h3
    exact ⟨rfl, List.Forall₂.nil⟩
  | cons f rest ih =>
    intro fs fs1 ps assets h
    unfold uploadPhase at h
    cases hu : upload_to_gemini O (tempPath f.name) (mimeType (tempPath f.name)) with
    | error e =>
      rw [hu] at h
      injection h with h1 h2
      injection h2 with h2 h3
      cases h3
    | ok a =>
      rw [hu] at h
      cases hrec : uploadPhase O (fsWrite fs (tempPath f.name)) rest with
      | mk fs2 pr =>
        cases pr with
        | mk ps2 res =>
          rw [hrec] at h
          cases res with
          | error e =>
            injection h with h1 h2
            injection h2 with h2 h3
            cases h3
          | ok as =>
            injection h with h1 h2
            injection h2 with h2 h3
            injection h3 with h3
            subst h1
            subst h2
            subst h3
            obtain ⟨hps, hfa⟩ := ih hrec
            refine ⟨?_, List.Forall₂.cons hu hfa⟩
            rw [List.map_cons, hps]

lemma not_mem_removeIfExists_of_not_mem {p : String} {a : List String} (q : String)
    (h : p ∉ a) : p ∉ removeIfExists a q := by
  unfold removeIfExists
  by_cases hm : q ∈ a
  · rw [if_pos hm]
    intro hin
    exact h (List.mem_of_mem_filter hin)
  · rw [if_neg hm]
    exact h

lemma not_mem_removeIfExists_self (a : List String) (p : String) :
    p ∉ removeIfExists a p := by
  unfold removeIfExists
  by_cases hm : p ∈ a
  · rw [if_pos hm]
    intro hin
    have hdec := (List.mem_filter.mp hin).2
    simp at hdec
  · rw [if_neg hm]
    exact hm

lemma not_mem_cleanupTemps_of_not_mem (p : String) :
    ∀ (ps fs : List String), p ∉ fs → p ∉ cleanupTemps fs ps := by
  intro ps
  induction ps with
  | nil => intro fs h; exact h
  | cons q qs ih =>
    intro fs h
    have hstep : p ∉ removeIfExists fs q := not_mem_removeIfExists_of_not_mem q h
    have hrec := ih (removeIfExists fs q) hstep
    simpa [cleanupTemps, List.foldl_cons] using hrec

lemma not_mem_cleanupTemps (p : String) :
    ∀ (ps fs : List String), p ∈ ps → p ∉ cleanupTemps fs ps := by
  intro ps
  induction ps with
  | nil => intro fs h; cases h
  | cons q qs ih =>
    intro fs h
    rcases List.mem_cons.mp h with rfl | hmem
    · have hstep : p ∉ removeIfExists fs p := not_mem_removeIfExists_self fs p
      have hrec := not_mem_cleanupTemps_of_not_mem p qs (removeIfExists fs p) hstep
      simpa [cleanupTemps, List.foldl_cons] using hrec
    · have hrec := ih (removeIfExists fs q) hmem
      simpa [cleanupTemps, List.foldl_cons] using hrec

/-! ## Orchestrator unfolding lemmas -/

lemma analyze_from_url_eq {O : Oracle} {c c1 : CacheState} {model : ModelHandle}
    {url mn : String} {cfg : GenerationConfig} {si ip : String} {r : ChatResponse}
    (hlm : load_gemini_model c ⟨mn, cfg, si⟩ = (c1, model))
    (h : O.sendMessage model (urlChatHistory url) ip = Except.ok r) :
    analyze_video_from_url O c url mn cfg si ip = (c1, Except.ok r.text) := by
  simp only [analyze_video_from_url, hlm, h]

lemma analyze_from_files_eq {O : Oracle} {W : World} {video_files : List VFile}
    {mn : String} {cfg : GenerationConfig} {si ip : String}
    {fs1 ps : List String} {assets : List UploadedAsset} {tr : List PollEv}
    {c1 : CacheState} {model : ModelHandle} {r : ChatResponse}
    (h1 : uploadPhase O W.fs video_files = (fs1, ps, Except.ok assets))
    (h2 : wait_for_files_active O.fetchStates (assets.map (fun a => a.name)) =
      some (tr, Except.ok ()))
    (hlm : load_gemini_model W.cache ⟨mn, cfg, si⟩ = (c1, model))
    (h3 : O.sendMessage model (filesChatHistory assets) ip = Except.ok r) :
    analyze_video_from_files O W video_files mn cfg si ip =
      some ({ fs := cleanupTemps fs1 ps, cache := c1 }, Except.ok r.text) := by
  simp only [analyze_video_from_files, h1, h2, hlm, h3]

/-! ## Claim C1 -/

/-- A concrete oracle whose conversation call always fails. -/
def failSendOracle : Oracle :=
  { upload := fun p _ => Except.ok ⟨"files/" ++ p⟩,
    fetchStates := fun _ => ["ACTIVE"],
    sendMessage := fun _ _ _ => Except.error (Err.analysisError "boom") }

/-- A concrete oracle succeeding on everything, answering a fixed summary. -/
def okOracle : Oracle :=
  { upload := fun p _ => Except.ok ⟨"files/" ++ p⟩,
    fetchStates := fun _ => ["ACTIVE"],
    sendMessage := fun _ _ _ => Except.ok ⟨"summary"⟩ }

/-- The world at the start of a request: no temp files, empty cache. -/
def emptyWorld : World := { fs := [], cache := initCache }

/-- Two concrete input files. -/
def twoFiles : List VFile := [⟨"a.mp4", "xx"⟩, ⟨"b.mp4", "yy"⟩]

/-- Claim C1 counterexample: with two input files, both uploads succeeding
and every asset ACTIVE, the remote conversation call raises AnalysisError;
the error propagates out of analyze_video_from_files, yet both temporary
local files still exist when the call completes — cleanup is skipped on this
exit path. -/
theorem temp_files_remain_after_analysis_error :
    (analyze_video_from_files failSendOracle emptyWorld twoFiles
        "m" generation_config "sys" "go").map
      (fun p => (p.1.fs.contains (tempPath "a.mp4"),
                 p.1.fs.contains (tempPath "b.mp4"), p.2)) =
    some (true, true, Except.error (Err.analysisError "boom")) := by
  rfl

/-- Claim C1 (amended): the temporary files are deleted on the successful
exit path only — whenever analyze_video_from_files returns normally with an
analysis text, no temporary path created in step 1 still exists; on the error
exit paths the source has no finally-equivalent and the files remain (see the
counterexample). -/
theorem analyze_from_files_cleanup_on_success
    (O : Oracle) (W : World) (video_files : List VFile) (mn : String)
    (cfg : GenerationConfig) (si ip : String) (W1 : World) (t : String)
    (h : analyze_video_from_files O W video_files mn cfg si ip =
      some (W1, Except.ok t)) :
    ∀ f ∈ video_files, tempPath f.name ∉ W1.fs := by
  intro f hf
  unfold analyze_video_from_files at h
  split at h
  · simp at h
  · rename_i fs1 ps assets hup
    split at h
    · cases h
    · simp at h
    · split at h
      rename_i c1 model hlm
      split at h
      · simp at h
      · rename_i response hsend
        injection h with h
        injection h with hW ht
        subst hW
        obtain ⟨hps, _⟩ := uploadPhase_ok hup
        have hmem : tempPath f.name ∈ ps := by
          rw [hps]
          exact List.mem_map_of_mem _ hf
        exact not_mem_cleanupTemps _ ps fs1 hmem

/-- The cache key and cache contents after one model load in the C1/C8
witness runs. -/
def keyM : CacheKey := ⟨"m", generation_config, "sys"⟩

def cacheM : CacheState := { entries := [(keyM, ⟨0, keyM⟩)], nextId := 1 }

/-- The world after a successful two-file run from emptyWorld. -/
def cleanWorld : World := { fs := [], cache := cacheM }

/-- Witness for the amended C1 on a concrete successful two-file run. -/
theorem analyze_from_files_cleanup_on_success_witness :
    tempPath (VFile.name ⟨"a.mp4", "xx"⟩) ∉ cleanWorld.fs :=
  analyze_from_files_cleanup_on_success okOracle emptyWorld twoFiles
    "m" generation_config "sys" "go" cleanWorld "summary" (by rfl)
    ⟨"a.mp4", "xx"⟩ (by decide)

/-! ## Claim C3 -/

/-- A concrete oracle that answers only a session seeded with exactly the
scenario URL as the single part of the single user turn. -/
def urlOracle : Oracle :=
  { upload := fun p _ => Except.ok ⟨"files/" ++ p⟩,
    fetchStates := fun _ => ["ACTIVE"],
    sendMessage := fun _ hist _ =>
      if hist = [{ role := "user", parts := [ChatPart.text "https://example.com/v.mp4"] }]
      then Except.ok ⟨"the reply"⟩
      else Except.error (Err.analysisError "unexpected history") }

/-- Claim C3: analyze_video_from_url opens a session whose initial history is
exactly one user turn whose single part is the URL string, sends the prompt
as the follow-up, and returns the session text reply unmodified. -/
theorem url_history_and_reply
    (O : Oracle) (c c1 : CacheState) (model : ModelHandle) (url mn : String)
    (cfg : GenerationConfig) (si ip : String) (r : ChatResponse)
    (hlm : load_gemini_model c ⟨mn, cfg, si⟩ = (c1, model))
    (h : O.sendMessage model (urlChatHistory url) ip = Except.ok r) :
    urlChatHistory url = [{ role := "user", parts := [ChatPart.text url] }] ∧
    analyze_video_from_url O c url mn cfg si ip = (c1, Except.ok r.text) :=
  ⟨rfl, analyze_from_url_eq hlm h⟩

/-- Witness for C3 at a concrete URL against an oracle that rejects every
history other than the single-URL turn. -/
theorem url_history_and_reply_witness :
    urlChatHistory "https://example.com/v.mp4" =
      [{ role := "user", parts := [ChatPart.text "https://example.com/v.mp4"] }] ∧
    analyze_video_from_url urlOracle initCache "https://example.com/v.mp4" "m"
      generation_config "sys" "p" = (cacheM, Except.ok "the reply") :=
  url_history_and_reply urlOracle initCache cacheM ⟨0, keyM⟩
    "https://example.com/v.mp4" "m" generation_config "sys" "p" ⟨"the reply"⟩
    (by rfl) (by rfl)

/-! ## Claim C8 -/

/-- Claim C8: a successful upload phase yields exactly one UploadedAsset per
input file in the caller order (Forall₂ pairs the i-th file with the i-th
asset through the upload call on its temp path), and the session is opened
with initial content exactly that ordered asset sequence, whose reply text is
returned. -/
theorem uploads_ordered_and_session_content
    (O : Oracle) (W : World) (video_files : List VFile) (mn : String)
    (cfg : GenerationConfig) (si ip : String) (fs1 ps : List String)
    (assets : List UploadedAsset) (tr : List PollEv) (c1 : CacheState)
    (model : ModelHandle) (r : ChatResponse)
    (h1 : uploadPhase O W.fs video_files = (fs1, ps, Except.ok assets))
    (h2 : wait_for_files_active O.fetchStates (assets.map (fun a => a.name)) =
      some (tr, Except.ok ()))
    (hlm : load_gemini_model W.cache ⟨mn, cfg, si⟩ = (c1, model))
    (h3 : O.sendMessage model (filesChatHistory assets) ip = Except.ok r) :
    List.Forall₂ (fun f a =>
        upload_to_gemini O (tempPath f.name) (mimeType (tempPath f.name)) = Except.ok a)
      video_files assets ∧
    filesChatHistory assets = [{ role := "user", parts := assets.map ChatPart.asset }] ∧
    analyze_video_from_files O W video_files mn cfg si ip =
      some ({ fs := cleanupTemps fs1 ps, cache := c1 }, Except.ok r.text) :=
  ⟨(uploadPhase_ok h1).2, rfl, analyze_from_files_eq h1 h2 hlm h3⟩

/-- Witness for C8 on the concrete two-file run. -/
theorem uploads_ordered_and_session_content_witness :
    List.Forall₂ (fun f a =>
        upload_to_gemini okOracle (tempPath f.name) (mimeType (tempPath f.name)) =
          Except.ok a)
      twoFiles [⟨"files/temp_video_a.mp4"⟩, ⟨"files/temp_video_b.mp4"⟩] ∧
    filesChatHistory [⟨"files/temp_video_a.mp4"⟩, ⟨"files/temp_video_b.mp4"⟩] =
      [{ role := "user",
         parts := ([⟨"files/temp_video_a.mp4"⟩, ⟨"files/temp_video_b.mp4"⟩] :
           List UploadedAsset).map ChatPart.asset }] ∧
    analyze_video_from_files okOracle emptyWorld twoFiles "m" generation_config
        "sys" "go" =
      some ({ fs := cleanupTemps ["temp_video_b.mp4", "temp_video_a.mp4"]
                      ["temp_video_a.mp4", "temp_video_b.mp4"],
              cache := cacheM }, Except.ok "summary") :=
  uploads_ordered_and_session_content okOracle emptyWorld twoFiles "m"
    generation_config "sys" "go"
    ["temp_video_b.mp4", "temp_video_a.mp4"] ["temp_video_a.mp4", "temp_video_b.mp4"]
    [⟨"files/temp_video_a.mp4"⟩, ⟨"files/temp_video_b.mp4"⟩]
    [PollEv.fetch "files/temp_video_a.mp4", PollEv.fetch "files/temp_video_b.mp4"]
    cacheM ⟨0, keyM⟩ ⟨"summary"⟩ (by rfl) (by rfl) (by rfl) (by rfl)

/-! ## Claim C9 -/

/-- Claim C9: an empty system instruction together with an empty prompt is
accepted by both entry points: no local validation rejects the empty strings,
the full pipeline executes, and whatever text the remote model yields is
returned. -/
theorem empty_instruction_and_prompt_accepted
    (O : Oracle) (c c1 : CacheState) (model : ModelHandle) (url mn : String)
    (cfg : GenerationConfig) (r : ChatResponse) (W : World)
    (video_files : List VFile) (fs1 ps : List String) (assets : List UploadedAsset)
    (tr : List PollEv) (c2 : CacheState) (model2 : ModelHandle) (r2 : ChatResponse)
    (hlm : load_gemini_model c ⟨mn, cfg, ""⟩ = (c1, model))
    (h1 : O.sendMessage model (urlChatHistory url) "" = Except.ok r)
    (h2 : uploadPhase O W.fs video_files = (fs1, ps, Except.ok assets))
    (h3 : wait_for_files_active O.fetchStates (assets.map (fun a => a.name)) =
      some (tr, Except.ok ()))
    (hlm2 : load_gemini_model W.cache ⟨mn, cfg, ""⟩ = (c2, model2))
    (h4 : O.sendMessage model2 (filesChatHistory assets) "" = Except.ok r2) :
    analyze_video_from_url O c url mn cfg "" "" = (c1, Except.ok r.text) ∧
    analyze_video_from_files O W video_files mn cfg "" "" =
      some ({ fs := cleanupTemps fs1 ps, cache := c2 }, Except.ok r2.text) :=
  ⟨analyze_from_url_eq hlm h1, analyze_from_files_eq h2 h3 hlm2 h4⟩

/-- The cache key and cache contents of the empty-instruction witness runs. -/
def keyE : CacheKey := ⟨"m", generation_config, ""⟩

def cacheE : CacheState := { entries := [(keyE, ⟨0, keyE⟩)], nextId := 1 }

/-- Witness for C9 on concrete runs with empty instruction and prompt. -/
theorem empty_instruction_and_prompt_accepted_witness :
    analyze_video_from_url okOracle initCache "https://example.com/v.mp4" "m"
      generation_config "" "" = (cacheE, Except.ok "summary") ∧
    analyze_video_from_files okOracle emptyWorld twoFiles "m" generation_config
        "" "" =
      some ({ fs := cleanupTemps ["temp_video_b.mp4", "temp_video_a.mp4"]
                      ["temp_video_a.mp4", "temp_video_b.mp4"],
              cache := cacheE }, Except.ok "summary") :=
  empty_instruction_and_prompt_accepted okOracle initCache cacheE ⟨0, keyE⟩
    "https://example.com/v.mp4" "m" generation_config ⟨"summary"⟩ emptyWorld
    twoFiles ["temp_video_b.mp4", "temp_video_a.mp4"]
    ["temp_video_a.mp4", "temp_video_b.mp4"]
    [⟨"files/temp_video_a.mp4"⟩, ⟨"files/temp_video_b.mp4"⟩]
    [PollEv.fetch "files/temp_video_a.mp4", PollEv.fetch "files/temp_video_b.mp4"]
    cacheE ⟨0, keyE⟩ ⟨"summary"⟩
    (by rfl) (by rfl) (by rfl) (by rfl) (by rfl) (by rfl)

end VideoAnalyzer
